import Mathlib

/-!
Shallow embedding of `chronologger` (src/main.rs): a periodic process
sampler that appends one CSV row per process per tick until a duration
elapses or a termination signal is observed.

Modelling conventions:
* The output sink (csv::Writer over BufWriter<File>) is a record buffer
  plus a durable portion: `write_record` appends to `written`,
  `flush` marks everything written so far as durable (`flushedCount`).
  Fault injection for I/O is an oracle indexed by the call number.
* The system snapshot provider, the wall clock, the monotonic clock and
  the signal-driven `running` flag are oracles in `Env`, read-only for
  the loop (matching `Arc<AtomicBool>` that the loop only loads).
* Rust `u64` values become `Nat` (parse enforces `< 2^64`);
  `f32`/`f64` percentages become `ℚ` with `{:.2}` formatting modelled
  by rounding to the nearest hundredth.
* `Result<T>` with `anyhow` context strings becomes `T × Option String`
  (state is threaded even past an error, as with `&mut self` in Rust).
-/

/-- Digit characters of `n`, most significant first, recursing on a
fuel bound so the definition reduces by iota (any `fuel ≥ n` computes
the digits of `n`; `natChars` instantiates `fuel := n`). -/
def natCharsAux (fuel n : Nat) : List Char :=
  match fuel with
  | 0 => [Char.ofNat (48 + n % 10)]
  | fuel + 1 =>
      if n < 10 then [Char.ofNat (48 + n)]
      else natCharsAux fuel (n / 10) ++ [Char.ofNat (48 + n % 10)]

/-- Decimal digit characters of `n`, most significant first
(model of Rust integer `Display`). -/
def natChars (n : Nat) : List Char := natCharsAux n n

/-- Decimal string of `n` (model of Rust `to_string` on unsigned ints). -/
def natStr (n : Nat) : String := String.mk (natChars n)

/-- Numeric value of a digit string, most significant first. -/
def charsToNat (cs : List Char) : Nat :=
  cs.foldl (fun acc c => acc * 10 + (c.toNat - 48)) 0

/-- Exactly-two-digit rendering of `b < 100` (fraction part of `{:.2}`). -/
def pad2Chars (b : Nat) : List Char :=
  if b < 10 then '0' :: natChars b else natChars b

/-- Character form of a non-negative fixed-two-decimal number whose value
is `n / 100`. -/
def fixed2Chars (n : Nat) : List Char :=
  natChars (n / 100) ++ '.' :: pad2Chars (n % 100)

/-- Model of Rust `format!("\x7b:.2\x7d", x)`: round to the nearest
hundredth and print with exactly two digits after the point. -/
def formatFixed2 (q : ℚ) : String :=
  let z : ℤ := round (q * 100)
  if z < 0 then String.mk ('-' :: fixed2Chars z.natAbs)
  else String.mk (fixed2Chars z.natAbs)

/-- `true` iff `s` is a nonempty string of decimal digits. -/
def isNatString (s : String) : Bool :=
  !s.data.isEmpty && s.data.all Char.isDigit

/-- `true` iff `s` is digits, then a point, then exactly two digits. -/
def twoDecimalDigits (s : String) : Bool :=
  match s.data.dropWhile (fun c => !(c == '.')) with
  | '.' :: fp =>
      !(s.data.takeWhile (fun c => !(c == '.'))).isEmpty &&
      (s.data.takeWhile (fun c => !(c == '.'))).all Char.isDigit &&
      fp.length == 2 && fp.all Char.isDigit
  | _ => false

/-- Parse a non-negative fixed-two-decimal numeral back into `ℚ`
(the read-back direction of the spec's CSV field contract). -/
def parseFixed2 (s : String) : Option ℚ :=
  match s.data.dropWhile (fun c => !(c == '.')) with
  | '.' :: fp =>
      if !(s.data.takeWhile (fun c => !(c == '.'))).isEmpty &&
         (s.data.takeWhile (fun c => !(c == '.'))).all Char.isDigit &&
         fp.length == 2 && fp.all Char.isDigit
      then some ((charsToNat (s.data.takeWhile (fun c => !(c == '.'))) : ℚ) +
                 (charsToNat fp : ℚ) / 100)
      else none
  | _ => none

/-- One process as returned by the snapshot provider: PID (non-negative
on every supported platform), name, CPU percentage (`cpu_usage()`), and
memory in bytes (`memory()`). -/
structure Proc where
  pid : Nat
  name : String
  cpu : ℚ
  memory : Nat
deriving DecidableEq

/-- `memory as f64 / total_memory as f64 * 100.0` from `log_processes`. -/
def memPercent (memory total : Nat) : ℚ := (memory : ℚ) / (total : ℚ) * 100

/-- The header record written by `ProcessLogger::write_header`. -/
def headerRow : List String :=
  ["Timestamp", "PID", "Process Name", "CPU Usage (%)", "Memory Usage (%)"]

/-- The record `log_processes` writes for one process in one tick. -/
def procRow (ts : String) (p : Proc) (total : Nat) : List String :=
  [ts, natStr p.pid, p.name, formatFixed2 p.cpu, formatFixed2 (memPercent p.memory total)]

/-- A CSV record as one text line (fields containing no comma, quote or
newline are written verbatim by the csv crate, joined by commas). -/
def renderRecord (r : List String) : String := String.intercalate "," r

/-- State of the output sink: every record successfully written in
order, how many of them have been flushed to durable storage, and call
counters used to index the fault oracles. -/
structure SinkState where
  written : List (List String)
  flushedCount : Nat
  writeCalls : Nat
  flushCalls : Nat
  headerCalls : Nat
deriving DecidableEq

/-- The sink of a freshly created `ProcessLogger` (empty file). -/
def initSink : SinkState := ⟨[], 0, 0, 0, 0⟩

/-- Records flushed to durable storage. -/
def SinkState.durable (s : SinkState) : List (List String) :=
  s.written.take s.flushedCount

/-- Environment: all oracles the program reads. `running` is the
`AtomicBool` value at the k-th loop check (the signal handler is its
only writer), `elapsedNs` the monotonic elapsed nanoseconds at the k-th
check, `timestamp`/`snapshot`/`totalMemory` the wall clock and system
state at tick t, and `writeOk`/`flushOk` the I/O fault oracles. -/
structure Env where
  running : Nat → Bool
  elapsedNs : Nat → Nat
  timestamp : Nat → String
  snapshot : Nat → List Proc
  totalMemory : Nat → Nat
  writeOk : Nat → Bool
  flushOk : Nat → Bool
  createOk : Bool
  signalsOk : Bool

/-- `writer.write_record(r)`: appends on success; the call counter
advances either way. -/
def sinkWrite (env : Env) (s : SinkState) (r : List String) : SinkState × Bool :=
  if env.writeOk s.writeCalls then
    ({ s with written := s.written ++ [r], writeCalls := s.writeCalls + 1 }, true)
  else
    ({ s with writeCalls := s.writeCalls + 1 }, false)

/-- `writer.flush()`: on success everything written becomes durable. -/
def sinkFlush (env : Env) (s : SinkState) : SinkState × Bool :=
  if env.flushOk s.flushCalls then
    ({ s with flushedCount := s.written.length, flushCalls := s.flushCalls + 1 }, true)
  else
    ({ s with flushCalls := s.flushCalls + 1 }, false)

/-- `ProcessLogger::write_header`: write the header record, then flush,
each failure mapped to its `context` message. -/
def writeHeader (env : Env) (s : SinkState) : SinkState × Option String :=
  let (s1, ok) := sinkWrite env s headerRow
  if ok then
    let s1h := { s1 with headerCalls := s1.headerCalls + 1 }
    let (s2, ok2) := sinkFlush env s1h
    if ok2 then (s2, none) else (s2, some "Failed to flush writer!")
  else (s1, some "Failed to write header")

/-- The `for (pid, process) in self.system.processes()` body: one
`write_record` per process, aborting at the first failure. -/
def writeRows (env : Env) (ts : String) (total : Nat) :
    List Proc → SinkState → SinkState × Option String
  | [], s => (s, none)
  | p :: ps, s =>
      let (s1, ok) := sinkWrite env s (procRow ts p total)
      if ok then writeRows env ts total ps s1
      else (s1, some "Failed to write record!")

/-- `ProcessLogger::log_processes` at tick `t`: refresh (implicit in the
oracles), capture the timestamp once, write one row per process, flush. -/
def logProcesses (env : Env) (t : Nat) (s : SinkState) : SinkState × Option String :=
  let ts := env.timestamp t
  match writeRows env ts (env.totalMemory t) (env.snapshot t) s with
  | (s1, some e) => (s1, some e)
  | (s1, none) =>
      let (s2, ok) := sinkFlush env s1
      if ok then (s2, none) else (s2, some "Failed to flush writer!")

/-- `run_logging_loop`: while `running.load() && start_time.elapsed() <
Duration::from_secs(duration)`, run a tick then sleep `interval`
seconds (the sleep only moves the `elapsedNs` oracle forward).
`fuel` bounds the number of checks so the model is total; `none` means
fuel ran out before the loop finished. On exit, returns the index of
the failed continuation check (= ticks begun), the sink state, and the
loop error if a tick aborted. -/
def runLoggingLoopAux (env : Env) (duration interval : Nat) :
    Nat → Nat → SinkState → Option (Nat × SinkState × Option String)
  | 0, _, _ => none
  | fuel + 1, k, s =>
      if env.running k = true ∧ env.elapsedNs k < duration * 1000000000 then
        match logProcesses env k s with
        | (s', none) => runLoggingLoopAux env duration interval fuel (k + 1) s'
        | (s', some e) => some (k, s', some e)
      else some (k, s, none)

/-- Outcome of `main` after argument parsing: which startup step failed,
or the loop's result (`done` carries ticks begun, final sink state, and
the caught loop error if any). -/
inductive RunOutcome where
  | createErr : RunOutcome
  | headerErr : SinkState → RunOutcome
  | signalsErr : SinkState → RunOutcome
  | done : Nat → SinkState → Option String → RunOutcome
deriving DecidableEq

/-- `main` from `ProcessLogger::new` onward: create the file, write the
header, install the signal handler, run the loop. Each `?` step that
fails short-circuits; the loop error alone is caught and logged. -/
def programRun (env : Env) (duration interval fuel : Nat) : Option RunOutcome :=
  if env.createOk then
    match writeHeader env initSink with
    | (s, some _) => some (.headerErr s)
    | (s, none) =>
        if env.signalsOk then
          match runLoggingLoopAux env duration interval fuel 0 s with
          | none => none
          | some (k, s', e) => some (.done k s' e)
        else some (.signalsErr s)
  else some .createErr

/-- Rust `u64::from_str` as invoked by `clap::value_parser!(u64)`: an
optional leading `+`, then one or more decimal digits, value below
`2^64`. -/
def parseU64 (s : String) : Option Nat :=
  let ds := match s.data with
    | '+' :: rest => rest
    | cs => cs
  if !ds.isEmpty && ds.all Char.isDigit then
    let n := charsToNat ds
    if n < 2 ^ 64 then some n else none
  else none

/-- `Config` from `main.rs`: interval and duration in seconds, output
path. -/
structure Config where
  interval : Nat
  output : String
  duration : Nat
deriving DecidableEq

/-- `Config::parse_args` + `Config::from_args` over the three argument
values: construction succeeds exactly when interval and duration parse
as `u64` (the output value is taken as-is). -/
def configFromArgs (intervalStr outputStr durationStr : String) : Option Config :=
  match parseU64 intervalStr, parseU64 durationStr with
  | some i, some d => some ⟨i, outputStr, d⟩
  | _, _ => none

/-- Exit code of the whole process. `main` returns `Result<()>`, so an
error propagated by `?` exits 1; a malformed numeric argument makes
clap terminate with its usage-error code 2 inside `get_matches`; the
loop error is caught, logged, and `main` returns `Ok` (exit 0).
`none` means loop fuel ran out. -/
def mainRun (env : Env) (intervalStr outputStr durationStr : String)
    (fuel : Nat) : Option Nat :=
  match configFromArgs intervalStr outputStr durationStr with
  | none => some 2
  | some cfg =>
      match programRun env cfg.duration cfg.interval fuel with
      | none => none
      | some .createErr => some 1
      | some (.headerErr _) => some 1
      | some (.signalsErr _) => some 1
      | some (.done _ _ _) => some 0

/-- Rows a fully successful tick `t` appends: one `procRow` per process
in the snapshot, sharing the tick's single timestamp. -/
def tickRows (env : Env) (t : Nat) : List (List String) :=
  (env.snapshot t).map fun p => procRow (env.timestamp t) p (env.totalMemory t)

/-- Sink evolution along the loop: the header-write count is unchanged
and only well-formed five-field records get appended. -/
def RowsExtended (s s' : SinkState) : Prop :=
  s'.headerCalls = s.headerCalls ∧
  ∃ rs, s'.written = s.written ++ rs ∧ ∀ r ∈ rs, r.length = 5

/-- A concrete process used to instantiate the theorems. -/
def pW : Proc := ⟨1, "pa", 1/2, 50⟩

/-- A concrete fault-free environment used to instantiate the theorems:
one process per snapshot, one tick's worth of budget per second of
elapsed time. -/
def envW : Env where
  running := fun _ => true
  elapsedNs := fun k => k * 1000000000
  timestamp := fun t => "T" ++ natStr t
  snapshot := fun _ => [pW]
  totalMemory := fun _ => 100
  writeOk := fun _ => true
  flushOk := fun _ => true
  createOk := true
  signalsOk := true

/-- `envW` with the sink failing on its second write call (call index 1;
the header write is call 0), the spec's simulated-failure scenario. -/
def envFail2 : Env := { envW with writeOk := fun n => !(n == 1) }

/-- `envW` with a two-process snapshot and the sink failing from the
third write call on, so a tick aborts midway through its rows. -/
def envMidTick : Env :=
  { envW with
    snapshot := fun _ => [pW, ⟨2, "pb", 3, 25⟩]
    writeOk := fun n => decide (n < 2) }

section DigitLemmas

lemma data_mk (cs : List Char) : (String.mk cs).data = cs := rfl

lemma natCharsAux_lt10 {fuel n : Nat} (h : n < 10) :
    natCharsAux fuel n = [Char.ofNat (48 + n)] := by
  cases fuel with
  | zero => simp [natCharsAux, Nat.mod_eq_of_lt h]
  | succ fuel => simp [natCharsAux, h]

lemma natChars_lt10 {n : Nat} (h : n < 10) : natChars n = [Char.ofNat (48 + n)] :=
  natCharsAux_lt10 h

lemma natCharsAux_ne_nil (fuel n : Nat) : natCharsAux fuel n ≠ [] := by
  cases fuel with
  | zero => simp [natCharsAux]
  | succ fuel =>
    unfold natCharsAux
    split <;> simp

lemma natChars_ne_nil (n : Nat) : natChars n ≠ [] := natCharsAux_ne_nil n n

lemma digit_isDigit {d : Nat} (h : d < 10) : (Char.ofNat (48 + d)).isDigit = true := by
  interval_cases d <;> decide

lemma natCharsAux_all_digits (fuel : Nat) :
    ∀ n, (natCharsAux fuel n).all Char.isDigit = true := by
  induction fuel with
  | zero =>
    intro n
    simp [natCharsAux, digit_isDigit (Nat.mod_lt n (by omega))]
  | succ fuel ih =>
    intro n
    unfold natCharsAux
    split
    · next h => simp [digit_isDigit h]
    · next h =>
      simp [List.all_append, ih (n / 10), digit_isDigit (Nat.mod_lt n (by omega))]

lemma natChars_all_digits (n : Nat) : (natChars n).all Char.isDigit = true :=
  natCharsAux_all_digits n n

lemma pad2Chars_all_digits (b : Nat) : (pad2Chars b).all Char.isDigit = true := by
  unfold pad2Chars
  split
  · simp [natChars_all_digits, show ('0' : Char).isDigit = true from rfl]
  · exact natChars_all_digits b

lemma pad2Chars_length {b : Nat} (h : b < 100) : (pad2Chars b).length = 2 := by
  unfold pad2Chars
  split
  · next h10 => simp [natChars_lt10 h10]
  · next h10 =>
    unfold natChars
    rcases b with _ | m
    · omega
    · unfold natCharsAux
      rw [if_neg h10]
      have hdiv : (m + 1) / 10 < 10 := by omega
      simp [natCharsAux_lt10 hdiv]

lemma isDigit_ne_dot {c : Char} (h : c.isDigit = true) : (c == '.') = false := by
  cases hbe : (c == '.') with
  | false => rfl
  | true => exact absurd (beq_iff_eq.mp hbe ▸ h) (by decide)

lemma takeWhile_digits {ip : List Char} (fp : List Char)
    (h : ip.all Char.isDigit = true) :
    (ip ++ '.' :: fp).takeWhile (fun c => !(c == '.')) = ip ∧
    (ip ++ '.' :: fp).dropWhile (fun c => !(c == '.')) = '.' :: fp := by
  induction ip with
  | nil => constructor <;> simp [List.takeWhile_cons, List.dropWhile_cons]
  | cons c cs ih =>
    simp only [List.all_cons, Bool.and_eq_true] at h
    obtain ⟨h1, h2⟩ := ih h.2
    simp [List.takeWhile_cons, List.dropWhile_cons, isDigit_ne_dot h.1, h1, h2]

end DigitLemmas

section FormatLemmas

lemma fixed2Chars_parse (n : Nat) :
    twoDecimalDigits (String.mk (fixed2Chars n)) = true ∧
    parseFixed2 (String.mk (fixed2Chars n)) =
      some ((charsToNat (natChars (n / 100)) : ℚ) +
            (charsToNat (pad2Chars (n % 100)) : ℚ) / 100) := by
  have hdig := natChars_all_digits (n / 100)
  have hmod : n % 100 < 100 := Nat.mod_lt _ (by norm_num)
  have hlen := pad2Chars_length hmod
  have hfd := pad2Chars_all_digits (n % 100)
  have hne := natChars_ne_nil (n / 100)
  obtain ⟨ht, hd⟩ := takeWhile_digits (pad2Chars (n % 100)) hdig
  constructor
  · unfold twoDecimalDigits
    rw [data_mk, fixed2Chars, hd, ht]
    simp [hdig, hfd, hlen, hne]
  · unfold parseFixed2
    rw [data_mk, fixed2Chars, hd, ht]
    simp [hdig, hfd, hlen, hne]

lemma round_mul_nonneg {q : ℚ} (hq : 0 ≤ q) : 0 ≤ round (q * 100) := by
  rw [round_eq, Int.floor_nonneg]
  linarith

lemma formatFixed2_nonneg_spec {q : ℚ} (hq : 0 ≤ q) :
    twoDecimalDigits (formatFixed2 q) = true ∧
    ∃ v, parseFixed2 (formatFixed2 q) = some v ∧ 0 ≤ v := by
  have hz := round_mul_nonneg hq
  have hform : formatFixed2 q = String.mk (fixed2Chars (round (q * 100)).natAbs) := by
    unfold formatFixed2
    simp [not_lt.mpr hz]
  obtain ⟨h1, h2⟩ := fixed2Chars_parse (round (q * 100)).natAbs
  refine ⟨hform ▸ h1, _, hform ▸ h2, ?_⟩
  positivity

lemma natStr_isNatString (n : Nat) : isNatString (natStr n) = true := by
  unfold isNatString natStr
  rw [data_mk]
  simp [natChars_all_digits n, natChars_ne_nil n]

end FormatLemmas

section SinkLemmas

lemma procRow_length (ts : String) (p : Proc) (total : Nat) :
    (procRow ts p total).length = 5 := rfl

lemma procRow_head (ts : String) (p : Proc) (total : Nat) :
    (procRow ts p total).head? = some ts := rfl

lemma sinkWrite_ok {env : Env} {s s1 : SinkState} {r : List String}
    (h : sinkWrite env s r = (s1, true)) :
    s1.written = s.written ++ [r] ∧ s1.flushedCount = s.flushedCount ∧
    s1.headerCalls = s.headerCalls := by
  unfold sinkWrite at h
  split at h
  · injection h with h1 h2
    subst h1
    exact ⟨rfl, rfl, rfl⟩
  · injection h with h1 h2
    cases h2

lemma sinkFlush_ok {env : Env} {s s1 : SinkState}
    (h : sinkFlush env s = (s1, true)) :
    s1.written = s.written ∧ s1.flushedCount = s.written.length ∧
    s1.headerCalls = s.headerCalls := by
  unfold sinkFlush at h
  split at h
  · injection h with h1 h2
    subst h1
    exact ⟨rfl, rfl, rfl⟩
  · injection h with h1 h2
    cases h2

lemma sinkFlush_err {env : Env} {s s1 : SinkState}
    (h : sinkFlush env s = (s1, false)) :
    s1.written = s.written ∧ s1.flushedCount = s.flushedCount ∧
    s1.headerCalls = s.headerCalls := by
  unfold sinkFlush at h
  split at h
  · injection h with h1 h2
    cases h2
  · injection h with h1 h2
    subst h1
    exact ⟨rfl, rfl, rfl⟩

lemma writeRows_ok {env : Env} {ts : String} {total : Nat} :
    ∀ {ps : List Proc} {s s1 : SinkState},
    writeRows env ts total ps s = (s1, none) →
    s1.written = s.written ++ ps.map (fun p => procRow ts p total) ∧
    s1.flushedCount = s.flushedCount ∧ s1.headerCalls = s.headerCalls := by
  intro ps
  induction ps with
  | nil =>
    intro s s1 h
    unfold writeRows at h
    simp_all
  | cons p ps ih =>
    intro s s1 h
    unfold writeRows at h
    rcases hw : sinkWrite env s (procRow ts p total) with ⟨sw, ok⟩
    rw [hw] at h
    cases ok with
    | false => simp at h
    | true =>
      simp only [if_pos rfl] at h
      obtain ⟨hw1, hw2, hw3⟩ := sinkWrite_ok hw
      obtain ⟨h1, h2, h3⟩ := ih h
      refine ⟨?_, by omega, by omega⟩
      rw [h1, hw1]
      simp

lemma writeRows_err {env : Env} {ts : String} {total : Nat} :
    ∀ {ps : List Proc} {s s1 : SinkState} {e : String},
    writeRows env ts total ps s = (s1, some e) →
    ∃ m, s1.written = s.written ++ (ps.take m).map (fun p => procRow ts p total) ∧
    s1.flushedCount = s.flushedCount ∧ s1.headerCalls = s.headerCalls ∧
    e = "Failed to write record!" := by
  intro ps
  induction ps with
  | nil =>
    intro s s1 e h
    unfold writeRows at h
    simp_all
  | cons p ps ih =>
    intro s s1 e h
    unfold writeRows at h
    rcases hw : sinkWrite env s (procRow ts p total) with ⟨sw, ok⟩
    rw [hw] at h
    cases ok with
    | false =>
      simp only [Bool.false_eq_true, if_false, Prod.mk.injEq, Option.some.injEq] at h
      obtain ⟨rfl, rfl⟩ := h
      unfold sinkWrite at hw
      split at hw
      · injection hw with hw1 hw2
        cases hw2
      · injection hw with hw1 hw2
        subst hw1
        exact ⟨0, by simp, rfl, rfl, rfl⟩
    | true =>
      simp only [if_pos rfl] at h
      obtain ⟨hw1, hw2, hw3⟩ := sinkWrite_ok hw
      obtain ⟨m, h1, h2, h3, h4⟩ := ih h
      refine ⟨m + 1, ?_, by omega, by omega, h4⟩
      rw [h1, hw1]
      simp

lemma logProcesses_ok {env : Env} {t : Nat} {s s1 : SinkState}
    (h : logProcesses env t s = (s1, none)) :
    s1.written = s.written ++ tickRows env t ∧
    s1.flushedCount = s1.written.length ∧
    s1.headerCalls = s.headerCalls := by
  simp only [logProcesses] at h
  rcases hw : writeRows env (env.timestamp t) (env.totalMemory t) (env.snapshot t) s
    with ⟨sw, ew⟩
  rw [hw] at h
  cases ew with
  | some e => simp at h
  | none =>
    simp only at h
    rcases hf : sinkFlush env sw with ⟨sf, okf⟩
    rw [hf] at h
    cases okf with
    | false => simp at h
    | true =>
      simp only [if_pos rfl, Prod.mk.injEq] at h
      obtain ⟨rfl, -⟩ := h
      obtain ⟨hw1, hw2, hw3⟩ := writeRows_ok hw
      obtain ⟨hf1, hf2, hf3⟩ := sinkFlush_ok hf
      refine ⟨?_, ?_, by omega⟩
      · rw [hf1, hw1]
        rfl
      · rw [hf2, hf1]

lemma logProcesses_err {env : Env} {t : Nat} {s s1 : SinkState} {e : String}
    (h : logProcesses env t s = (s1, some e)) :
    ∃ m, s1.written = s.written ++
      ((env.snapshot t).take m).map
        (fun p => procRow (env.timestamp t) p (env.totalMemory t)) ∧
    s1.flushedCount = s.flushedCount ∧ s1.headerCalls = s.headerCalls := by
  simp only [logProcesses] at h
  rcases hw : writeRows env (env.timestamp t) (env.totalMemory t) (env.snapshot t) s
    with ⟨sw, ew⟩
  rw [hw] at h
  cases ew with
  | some e' =>
    simp only [Prod.mk.injEq, Option.some.injEq] at h
    obtain ⟨rfl, rfl⟩ := h
    obtain ⟨m, h1, h2, h3, -⟩ := writeRows_err hw
    exact ⟨m, h1, h2, h3⟩
  | none =>
    simp only at h
    rcases hf : sinkFlush env sw with ⟨sf, okf⟩
    rw [hf] at h
    cases okf with
    | true => simp at h
    | false =>
      simp only [Bool.false_eq_true, if_false, Prod.mk.injEq, Option.some.injEq] at h
      obtain ⟨rfl, rfl⟩ := h
      obtain ⟨hw1, hw2, hw3⟩ := writeRows_ok hw
      obtain ⟨hf1, hf2, hf3⟩ := sinkFlush_err hf
      refine ⟨(env.snapshot t).length, ?_, by omega, by omega⟩
      rw [hf1, hw1, List.take_length]

end SinkLemmas

section LoopLemmas

lemma RowsExtended_refl (s : SinkState) : RowsExtended s s :=
  ⟨rfl, [], by simp, by simp⟩

lemma RowsExtended_trans {s1 s2 s3 : SinkState}
    (h12 : RowsExtended s1 s2) (h23 : RowsExtended s2 s3) : RowsExtended s1 s3 := by
  obtain ⟨ha, rs, hb, hc⟩ := h12
  obtain ⟨hd, rs', he, hf⟩ := h23
  refine ⟨hd.trans ha, rs ++ rs', ?_, ?_⟩
  · rw [he, hb, List.append_assoc]
  · intro r hr
    rcases List.mem_append.mp hr with h | h
    · exact hc r h
    · exact hf r h

lemma logProcesses_extends {env : Env} {t : Nat} {s s1 : SinkState} {e : Option String}
    (h : logProcesses env t s = (s1, e)) : RowsExtended s s1 := by
  cases e with
  | none =>
    obtain ⟨h1, -, h3⟩ := logProcesses_ok h
    refine ⟨h3, tickRows env t, h1, ?_⟩
    intro r hr
    obtain ⟨p, -, rfl⟩ := List.mem_map.mp hr
    exact procRow_length ..
  | some e' =>
    obtain ⟨m, h1, -, h3⟩ := logProcesses_err h
    refine ⟨h3, _, h1, ?_⟩
    intro r hr
    obtain ⟨p, -, rfl⟩ := List.mem_map.mp hr
    exact procRow_length ..

lemma runLoop_le {env : Env} {duration interval : Nat} :
    ∀ {fuel k : Nat} {s : SinkState} {k' : Nat} {s' : SinkState} {e : Option String},
    runLoggingLoopAux env duration interval fuel k s = some (k', s', e) → k ≤ k' := by
  intro fuel
  induction fuel with
  | zero => intro k s k' s' e h; cases h
  | succ fuel ih =>
    intro k s k' s' e h
    unfold runLoggingLoopAux at h
    split at h
    · rcases hl : logProcesses env k s with ⟨sl, el⟩
      rw [hl] at h
      cases el with
      | none => exact Nat.le_of_succ_le (ih h)
      | some e' =>
        injection h with h1
        injection h1 with h2 h3
        omega
    · injection h with h1
      injection h1 with h2 h3
      omega

lemma runLoop_extends {env : Env} {duration interval : Nat} :
    ∀ {fuel k : Nat} {s : SinkState} {k' : Nat} {s' : SinkState} {e : Option String},
    runLoggingLoopAux env duration interval fuel k s = some (k', s', e) →
    RowsExtended s s' := by
  intro fuel
  induction fuel with
  | zero => intro k s k' s' e h; cases h
  | succ fuel ih =>
    intro k s k' s' e h
    unfold runLoggingLoopAux at h
    split at h
    · rcases hl : logProcesses env k s with ⟨sl, el⟩
      rw [hl] at h
      cases el with
      | none => exact RowsExtended_trans (logProcesses_extends hl) (ih h)
      | some e' =>
        injection h with h1
        injection h1 with h2 h3
        injection h3 with h4 h5
        subst h2 h4 h5
        exact logProcesses_extends hl
    · injection h with h1
      injection h1 with h2 h3
      injection h3 with h4 h5
      subst h2 h4 h5
      exact RowsExtended_refl s

lemma runLoop_durable {env : Env} {duration interval : Nat} :
    ∀ {fuel k : Nat} {s : SinkState} {k' : Nat} {s' : SinkState} {e : Option String},
    s.flushedCount = s.written.length →
    runLoggingLoopAux env duration interval fuel k s = some (k', s', e) →
    s'.durable = s.written ++ ((List.range' k (k' - k)).map (tickRows env)).flatten := by
  intro fuel
  induction fuel with
  | zero => intro k s k' s' e _ h; cases h
  | succ fuel ih =>
    intro k s k' s' e hfl h
    unfold runLoggingLoopAux at h
    split at h
    · rcases hl : logProcesses env k s with ⟨sl, el⟩
      rw [hl] at h
      cases el with
      | none =>
        obtain ⟨h1, h2, -⟩ := logProcesses_ok hl
        have hk1 : k + 1 ≤ k' := runLoop_le h
        have := ih (by omega) h
        rw [this, h1]
        have hsplit : k' - k = (k' - (k + 1)) + 1 := by omega
        rw [hsplit, List.range'_succ]
        simp [List.append_assoc]
      | some e' =>
        injection h with h1
        injection h1 with h2 h3
        injection h3 with h4 h5
        subst h2 h4 h5
        obtain ⟨m, h1, h2, -⟩ := logProcesses_err hl
        unfold SinkState.durable
        rw [h1, h2, hfl, Nat.sub_self]
        simp [List.take_left]
    · injection h with h1
      injection h1 with h2 h3
      injection h3 with h4 h5
      subst h2 h4 h5
      unfold SinkState.durable
      rw [hfl, Nat.sub_self, List.take_length]
      simp

end LoopLemmas

section HeaderLemmas

lemma writeHeader_ok {env : Env} {s s1 : SinkState}
    (h : writeHeader env s = (s1, none)) :
    s1.written = s.written ++ [headerRow] ∧ s1.flushedCount = s1.written.length ∧
    s1.headerCalls = s.headerCalls + 1 := by
  simp only [writeHeader] at h
  rcases hw : sinkWrite env s headerRow with ⟨sw, ok⟩
  rw [hw] at h
  cases ok with
  | false => simp at h
  | true =>
    simp only [if_pos rfl] at h
    rcases hf : sinkFlush env { sw with headerCalls := sw.headerCalls + 1 } with ⟨sf, ok2⟩
    rw [hf] at h
    cases ok2 with
    | false => simp at h
    | true =>
      simp only [if_pos rfl, Prod.mk.injEq] at h
      obtain ⟨rfl, -⟩ := h
      obtain ⟨hw1, hw2, hw3⟩ := sinkWrite_ok hw
      obtain ⟨hf1, hf2, hf3⟩ := sinkFlush_ok hf
      refine ⟨?_, ?_, ?_⟩
      · rw [hf1]
        exact hw1
      · rw [hf2, hf1]
      · rw [hf3]
        simp [hw3]

lemma writeHeader_init (env : Env) :
    writeHeader env initSink =
      if env.writeOk 0 = true then
        if env.flushOk 0 = true then ((⟨[headerRow], 1, 1, 1, 1⟩ : SinkState), none)
        else ((⟨[headerRow], 0, 1, 1, 1⟩ : SinkState), some "Failed to flush writer!")
      else ((⟨[], 0, 1, 0, 0⟩ : SinkState), some "Failed to write header") := by
  unfold writeHeader sinkWrite sinkFlush initSink
  cases hw : env.writeOk 0 <;> cases hf : env.flushOk 0 <;> simp [hw, hf]

end HeaderLemmas

/-- C1: with `max_duration_seconds = 0`, or with cancellation observed
at the loop's first continuation check, `run_logging_loop` performs
zero ticks (final check index 0), the output file holds exactly the
header record, and the run completes normally (`done` with no error). -/
theorem c1_zero_ticks_header_only (env : Env) (duration interval fuel : Nat)
    (hc : env.createOk = true) (hw : env.writeOk 0 = true)
    (hf : env.flushOk 0 = true) (hs : env.signalsOk = true)
    (h0 : duration = 0 ∨ env.running 0 = false) :
    ∃ s : SinkState,
      programRun env duration interval (fuel + 1) = some (.done 0 s none) ∧
      s.written = [headerRow] ∧ s.durable = [headerRow] := by
  refine ⟨⟨[headerRow], 1, 1, 1, 1⟩, ?_, rfl, rfl⟩
  have hguard : ¬(env.running 0 = true ∧ env.elapsedNs 0 < duration * 1000000000) := by
    rcases h0 with rfl | hr
    · simp
    · simp [hr]
  have hloop : runLoggingLoopAux env duration interval (fuel + 1) 0
      ⟨[headerRow], 1, 1, 1, 1⟩ = some (0, ⟨[headerRow], 1, 1, 1, 1⟩, none) := by
    unfold runLoggingLoopAux
    rw [if_neg hguard]
  unfold programRun
  rw [if_pos hc, writeHeader_init, if_pos hw, if_pos hf]
  dsimp only
  rw [if_pos hs, hloop]

/-- C1 witness: a concrete fault-free environment with duration 0. -/
theorem c1_zero_ticks_header_only_witness :
    ∃ s : SinkState,
      programRun envW 0 1 6 = some (.done 0 s none) ∧
      s.written = [headerRow] ∧ s.durable = [headerRow] :=
  c1_zero_ticks_header_only envW 0 1 5 rfl rfl rfl rfl (Or.inl rfl)

/-- C2: on every run that reaches the loop, the header record is
written exactly once and is the first record of the file, every record
of the file has exactly 5 fields, and the header renders as exactly
`Timestamp,PID,Process Name,CPU Usage (%),Memory Usage (%)`. -/
theorem c2_header_once_five_fields (env : Env)
    (duration interval fuel k : Nat) (s : SinkState) (e : Option String)
    (h : programRun env duration interval fuel = some (.done k s e)) :
    s.headerCalls = 1 ∧ s.written.head? = some headerRow ∧
    (∀ r ∈ s.written, r.length = 5) ∧
    renderRecord headerRow =
      "Timestamp,PID,Process Name,CPU Usage (%),Memory Usage (%)" := by
  unfold programRun at h
  split at h
  · rcases hh : writeHeader env initSink with ⟨sh, eh⟩
    rw [hh] at h
    cases eh with
    | some e' =>
      dsimp only at h
      injection h with h1
      exact RunOutcome.noConfusion h1
    | none =>
      dsimp only at h
      split at h
      · rcases hl : runLoggingLoopAux env duration interval fuel 0 sh with _ | ⟨k', s', e'⟩
        · rw [hl] at h
          cases h
        · rw [hl] at h
          dsimp only at h
          injection h with h1
          injection h1 with h2 h3 h5
          subst h2 h3 h5
          obtain ⟨hh1, hh2, hh3⟩ := writeHeader_ok hh
          obtain ⟨he1, rs, he2, he3⟩ := runLoop_extends hl
          have hshw : sh.written = [headerRow] := by
            rw [hh1]
            rfl
          refine ⟨?_, ?_, ?_, rfl⟩
          · rw [he1, hh3]
            rfl
          · rw [he2, hshw]
            rfl
          · intro r hr
            rw [he2, hshw] at hr
            rcases List.mem_append.mp hr with hmem | hmem
            · rw [List.mem_singleton] at hmem
              subst hmem
              rfl
            · exact he3 r hmem
      · injection h with h1
        exact RunOutcome.noConfusion h1
  · injection h with h1
    exact RunOutcome.noConfusion h1

/-- C2 witness: a concrete two-tick fault-free run has the header as
its first record, written exactly once. -/
theorem c2_header_once_five_fields_witness :
    (⟨[headerRow, ["T0", "1", "pa", "0.50", "50.00"],
       ["T1", "1", "pa", "0.50", "50.00"]], 3, 3, 3, 1⟩ : SinkState).headerCalls = 1 ∧
    (⟨[headerRow, ["T0", "1", "pa", "0.50", "50.00"],
       ["T1", "1", "pa", "0.50", "50.00"]], 3, 3, 3, 1⟩ : SinkState).written.head? =
      some headerRow :=
  ⟨(c2_header_once_five_fields envW 2 1 4 2 _ none (by with_unfolding_all rfl)).1,
   (c2_header_once_five_fields envW 2 1 4 2 _ none (by with_unfolding_all rfl)).2.1⟩

/-- C3: within one call of `log_processes` the timestamp is captured
once, so every row that call appends to the sink has that tick's single
timestamp as its first field. -/
theorem c3_one_timestamp_per_tick (env : Env) (t : Nat) (s : SinkState)
    (r : List String)
    (hr : r ∈ (logProcesses env t s).1.written.drop s.written.length) :
    r.head? = some (env.timestamp t) := by
  rcases hl : logProcesses env t s with ⟨s1, e⟩
  rw [hl] at hr
  have hmap : ∃ ps : List Proc,
      s1.written = s.written ++
        ps.map (fun p => procRow (env.timestamp t) p (env.totalMemory t)) := by
    cases e with
    | none =>
      obtain ⟨h1, -, -⟩ := logProcesses_ok hl
      exact ⟨env.snapshot t, h1⟩
    | some e' =>
      obtain ⟨m, h1, -, -⟩ := logProcesses_err hl
      exact ⟨(env.snapshot t).take m, h1⟩
  obtain ⟨ps, hps⟩ := hmap
  rw [hps, List.drop_left] at hr
  obtain ⟨p, -, rfl⟩ := List.mem_map.mp hr
  exact procRow_head ..

/-- C3 witness: the single row of a concrete tick carries that tick's
timestamp. -/
theorem c3_one_timestamp_per_tick_witness :
    (["T0", "1", "pa", "0.50", "50.00"] : List String) ∈
      (logProcesses envW 0 initSink).1.written.drop initSink.written.length ∧
    (["T0", "1", "pa", "0.50", "50.00"] : List String).head? =
      some (envW.timestamp 0) :=
  ⟨of_decide_eq_true (by with_unfolding_all rfl),
   c3_one_timestamp_per_tick envW 0 initSink _
     (of_decide_eq_true (by with_unfolding_all rfl))⟩

/-- C4: if the continuation check passes at index `k` and the tick's
`log_processes` call fails, the loop returns at once with exactly that
propagated error and final check index `k` — no retry happens and no
later tick starts. -/
theorem c4_error_aborts_loop (env : Env) (duration interval fuel k : Nat)
    (s s1 : SinkState) (e : String)
    (hg : env.running k = true) (he : env.elapsedNs k < duration * 1000000000)
    (hl : logProcesses env k s = (s1, some e)) :
    runLoggingLoopAux env duration interval (fuel + 1) k s = some (k, s1, some e) := by
  unfold runLoggingLoopAux
  rw [if_pos ⟨hg, he⟩, hl]

/-- C4 witness: the spec's scenario — the sink fails on its second
write call (the first data row), the loop stops during tick 0 with the
write-failure error, and no further tick begins. -/
theorem c4_error_aborts_loop_witness :
    runLoggingLoopAux envFail2 60 1 5 0 ⟨[headerRow], 1, 1, 1, 1⟩ =
      some (0, ⟨[headerRow], 1, 2, 1, 1⟩, some "Failed to write record!") :=
  c4_error_aborts_loop envFail2 60 1 4 0 ⟨[headerRow], 1, 1, 1, 1⟩
    ⟨[headerRow], 1, 2, 1, 1⟩ "Failed to write record!" rfl (by decide)
    (by with_unfolding_all rfl)

/-- C5 counterexample: the claim says construction must fail whenever
interval or duration is not a positive integer, but `"0"` parses as a
`u64` and construction succeeds with interval = duration = 0. -/
theorem c5_counterexample :
    configFromArgs "0" "process_usage.csv" "0" =
      some ⟨0, "process_usage.csv", 0⟩ := by
  with_unfolding_all rfl

/-- C5 (amended): construction succeeds exactly when interval and
duration parse as `u64` values (non-negative integers below `2^64`);
no positivity check is performed, so 0 is accepted. -/
theorem c5_amended_u64_parse (i o d : String) :
    (configFromArgs i o d).isSome = true ↔
    ((parseU64 i).isSome = true ∧ (parseU64 d).isSome = true) := by
  unfold configFromArgs
  rcases parseU64 i with _ | vi <;> rcases parseU64 d with _ | vd <;> simp

/-- C6 counterexample: a sink-creation failure is one of the claim's
"defined failures", yet `main` propagates it with `?` and the process
exits 1, not 0. -/
theorem c6_counterexample :
    mainRun { envW with createOk := false } "1" "process_usage.csv" "60" 1 =
      some 1 := by
  with_unfolding_all rfl

/-- C6 (amended): the run exits 0 exactly when argument parsing, file
creation, the header write+flush, and signal-handler installation all
succeed; a caught mid-run loop error still exits 0, while those startup
failures propagate out of `main` and exit nonzero. -/
theorem c6_amended_exit_codes (env : Env) (i o d : String) (fuel c : Nat)
    (h : mainRun env i o d fuel = some c) :
    c = 0 ↔ ((configFromArgs i o d).isSome = true ∧ env.createOk = true ∧
             env.writeOk 0 = true ∧ env.flushOk 0 = true ∧
             env.signalsOk = true) := by
  unfold mainRun programRun at h
  rcases hcfg : configFromArgs i o d with _ | cfg
  · rw [hcfg] at h
    dsimp only at h
    injection h with h1
    subst h1
    simp [hcfg]
  · rw [hcfg, writeHeader_init] at h
    rcases hco : env.createOk with _ | _ <;>
      rcases hwo : env.writeOk 0 with _ | _ <;>
        rcases hfo : env.flushOk 0 with _ | _ <;>
          rcases hso : env.signalsOk with _ | _ <;>
            simp only [hco, hwo, hfo, hso, Bool.false_eq_true, if_false, if_true,
              eq_self_iff_true, Option.some.injEq] at h
    case false.false.false.false | false.false.false.true | false.false.true.false |
         false.false.true.true | false.true.false.false | false.true.false.true |
         false.true.true.false | false.true.true.true =>
      subst h
      simp [hco]
    case true.false.false.false | true.false.false.true | true.false.true.false |
         true.false.true.true =>
      subst h
      simp [hwo]
    case true.true.false.false | true.true.false.true =>
      subst h
      simp [hfo]
    case true.true.true.false =>
      subst h
      simp [hso]
    case true.true.true.true =>
      rcases hl : runLoggingLoopAux env cfg.duration cfg.interval fuel 0
          ⟨[headerRow], 1, 1, 1, 1⟩ with _ | ⟨k', s', e'⟩
      · rw [hl] at h
        cases h
      · rw [hl] at h
        dsimp only at h
        injection h with h1
        subst h1
        simp [hcfg, hco, hwo, hfo, hso]

/-- C6 amended witness: a concrete fault-free one-tick run exits 0. -/
theorem c6_amended_exit_codes_witness :
    (0 : Nat) = 0 ↔ ((configFromArgs "1" "o.csv" "1").isSome = true ∧
      envW.createOk = true ∧ envW.writeOk 0 = true ∧ envW.flushOk 0 = true ∧
      envW.signalsOk = true) :=
  c6_amended_exit_codes envW "1" "o.csv" "1" 2 0 (by with_unfolding_all rfl)

/-- C7: starting from a fully flushed sink, whatever the loop does
(normal exit or mid-run abort), the durable file content is exactly the
starting content followed by whole completed-and-flushed tick blocks:
no half-written row and no rows of a partially completed tick are ever
durable, because the sink is flushed once per completed tick. -/
theorem c7_durable_tick_boundary (env : Env) (duration interval fuel k0 k : Nat)
    (s0 s : SinkState) (e : Option String)
    (hfl : s0.flushedCount = s0.written.length)
    (h : runLoggingLoopAux env duration interval fuel k0 s0 = some (k, s, e)) :
    s.durable = s0.written ++ ((List.range' k0 (k - k0)).map (tickRows env)).flatten :=
  runLoop_durable hfl h

/-- C7 witness: a tick that aborts on its second row leaves only the
header durable — the aborted tick contributes nothing to the file. -/
theorem c7_durable_tick_boundary_witness :
    (⟨[headerRow, ["T0", "1", "pa", "0.50", "50.00"]], 1, 3, 1, 1⟩ : SinkState).durable =
      [headerRow] ++ ((List.range' 0 (0 - 0)).map (tickRows envMidTick)).flatten :=
  c7_durable_tick_boundary envMidTick 1 1 3 0 0 ⟨[headerRow], 1, 1, 1, 1⟩
    ⟨[headerRow, ["T0", "1", "pa", "0.50", "50.00"]], 1, 3, 1, 1⟩
    (some "Failed to write record!") rfl (by with_unfolding_all rfl)

/-- C8: each data row is [timestamp, pid, name, cpu, mem]; the PID
field is the decimal text of a non-negative integer; the CPU and
memory-percentage fields are formatted with exactly two digits after
the decimal point and parse back as non-negative numbers (given the
snapshot provider's contract of non-negative finite CPU readings and a
positive memory total). -/
theorem c8_row_field_formats (ts : String) (p : Proc) (total : Nat)
    (hcpu : 0 ≤ p.cpu) (htot : 0 < total) :
    procRow ts p total =
      [ts, natStr p.pid, p.name, formatFixed2 p.cpu,
       formatFixed2 (memPercent p.memory total)] ∧
    (procRow ts p total).length = 5 ∧
    isNatString (natStr p.pid) = true ∧
    twoDecimalDigits (formatFixed2 p.cpu) = true ∧
    twoDecimalDigits (formatFixed2 (memPercent p.memory total)) = true ∧
    (∃ q, parseFixed2 (formatFixed2 p.cpu) = some q ∧ 0 ≤ q) ∧
    (∃ q, parseFixed2 (formatFixed2 (memPercent p.memory total)) = some q ∧ 0 ≤ q) := by
  have hmem : 0 ≤ memPercent p.memory total := by
    unfold memPercent
    positivity
  obtain ⟨hc1, hc2⟩ := formatFixed2_nonneg_spec hcpu
  obtain ⟨hm1, hm2⟩ := formatFixed2_nonneg_spec hmem
  exact ⟨rfl, rfl, natStr_isNatString p.pid, hc1, hm1, hc2, hm2⟩

/-- C8 witness: the concrete process `pW` at 0.5 percent CPU. -/
theorem c8_row_field_formats_witness :
    (0 : ℚ) ≤ pW.cpu ∧ (0 : Nat) < 100 ∧
    twoDecimalDigits (formatFixed2 pW.cpu) = true :=
  ⟨by norm_num [pW], by norm_num,
   (c8_row_field_formats "T0" pW 100 (by norm_num [pW]) (by norm_num)).2.2.2.1⟩

/-- C9: the loop's continuation predicate — elapsed time below the
budget AND the running flag still set — is evaluated before the
iteration's work; and a tick already in progress reads nothing from
the flag, so cancellation is observed only at iteration boundaries
(the flag is a read-only input of the loop: only the signal handler
writes it). -/
lemma writeRows_running_irrel (env : Env) (r : Nat → Bool) (ts : String)
    (total : Nat) : ∀ (ps : List Proc) (s : SinkState),
    writeRows { env with running := r } ts total ps s = writeRows env ts total ps s := by
  intro ps
  induction ps with
  | nil => intro s; rfl
  | cons p ps ih =>
    intro s
    unfold writeRows
    have hsw : sinkWrite { env with running := r } s (procRow ts p total) =
        sinkWrite env s (procRow ts p total) := rfl
    rw [hsw]
    rcases sinkWrite env s (procRow ts p total) with ⟨s1, ok⟩
    cases ok <;> simp [ih]

lemma logProcesses_running_irrel (env : Env) (r : Nat → Bool) (t : Nat)
    (s : SinkState) :
    logProcesses { env with running := r } t s = logProcesses env t s := by
  unfold logProcesses
  dsimp only
  rw [writeRows_running_irrel]
  rfl

theorem c9_guard_before_work (env : Env) (duration interval fuel k : Nat)
    (s : SinkState) :
    (runLoggingLoopAux env duration interval (fuel + 1) k s =
      if env.elapsedNs k < duration * 1000000000 ∧ env.running k = true then
        match logProcesses env k s with
        | (s', none) => runLoggingLoopAux env duration interval fuel (k + 1) s'
        | (s', some e) => some (k, s', some e)
      else some (k, s, none)) ∧
    (∀ r : Nat → Bool,
      logProcesses { env with running := r } k s = logProcesses env k s) := by
  constructor
  · by_cases hg : env.running k = true ∧ env.elapsedNs k < duration * 1000000000
    · rw [if_pos ⟨hg.2, hg.1⟩]
      conv_lhs => rw [runLoggingLoopAux]
      rw [if_pos hg]
    · rw [if_neg (fun hh => hg ⟨hh.2, hh.1⟩)]
      conv_lhs => rw [runLoggingLoopAux]
      rw [if_neg hg]
  · intro r
    exact logProcesses_running_irrel env r k s

/-- C10: a successful `write_header` has appended the header record and
flushed it, so the header is durably in the output file the moment
`write_header` returns — before any snapshot is taken, even if zero
ticks follow or the run aborts before the first tick. -/
theorem c10_header_flushed_immediately (env : Env) (s s1 : SinkState)
    (h : writeHeader env s = (s1, none)) :
    s1.written = s.written ++ [headerRow] ∧
    s1.flushedCount = s1.written.length ∧
    headerRow ∈ s1.durable := by
  obtain ⟨h1, h2, h3⟩ := writeHeader_ok h
  refine ⟨h1, h2, ?_⟩
  unfold SinkState.durable
  rw [h2, List.take_length, h1]
  simp

/-- C10 witness: the header write from a fresh sink. -/
theorem c10_header_flushed_immediately_witness :
    (⟨[headerRow], 1, 1, 1, 1⟩ : SinkState).written = initSink.written ++ [headerRow] ∧
    (⟨[headerRow], 1, 1, 1, 1⟩ : SinkState).flushedCount =
      (⟨[headerRow], 1, 1, 1, 1⟩ : SinkState).written.length ∧
    headerRow ∈ (⟨[headerRow], 1, 1, 1, 1⟩ : SinkState).durable :=
  c10_header_flushed_immediately envW initSink ⟨[headerRow], 1, 1, 1, 1⟩
    (by with_unfolding_all rfl)
